import Mathlib

/-!
Verification of the kube-ovn IPAM registry (`pkg/ipam/ipam.go`, under `src/`)
and the daemon gateway query `Controller.getSubnetsCIDR` (`pkg/daemon/gateway.go`,
under `src/`) against the natural-language specification.

The registry file under `src/` is the authority for everything it contains
(`IPAM.AddOrUpdateSubnet`, `IPAM.GetRandomAddress`, `IPAM.GetStaticAddress`,
`IPAM.DeleteSubnet`, `IPAM.GetPodAddress`, error values, locking structure).
The `Subnet` type with its methods (`GetStaticAddress`, `GetRandomAddress`,
`GetPodAddress`, `joinFreeWithReserve`), the interval algebra (`IPRangeList`,
`splitIPRangeList`) and the `util` parsing helpers (`CheckProtocol`,
`CheckDualCidrs`, `FirstSubnetIP`, `LastIP`) are referenced by `src/` but their
code is not under `src/`; those are modelled from the specification, as noted
on each definition.

Addresses are embedded per family as natural numbers.  The textual layer the
registry manipulates (the spec keeps addresses as strings whose family is
recognizable, and dual-stack values are comma-joined pairs, cf. the
`strings.Split(ip, ",")` in `src/`) is modelled as: an IPv4 address is a
decimal numeral, an IPv6 address is a decimal numeral carrying a colon, and a
dual value is the comma join of the two.  A CIDR denotes the closed interval
of its usable addresses and is written as the pair of its first and last
usable address, matching the spec, which only ever uses a CIDR through
`FirstSubnetIP`/`LastIP`/containment.
-/

namespace KubeOvn

/-- Typed error kinds of the registry, from the `errors.New` values in `src/`. -/
inductive IpamError where
  | outOfRange
  | conflict
  | noAvailable
  | invalidCIDR
deriving DecidableEq

/-- Protocol of a subnet or of an address string, per the spec's v4/v6/dual families. -/
inductive Protocol where
  | IPv4
  | IPv6
  | Dual
deriving DecidableEq

/-- Address family selector for the two per-family halves of a subnet. -/
inductive Family where
  | v4
  | v6
deriving DecidableEq

/-- Closed interval of addresses, the spec's `Interval` with `start`/`end`. -/
structure IPRange where
  lo : Nat
  hi : Nat
deriving DecidableEq

/-- Modelled from the spec: `FreeRangeList`, an interval list representing a set
of addresses (the interval algebra itself is not under `src/`). -/
abbrev IPRangeList := List IPRange

/-- Membership of one address in one closed interval. -/
def inRange (r : IPRange) (x : Nat) : Bool :=
  decide (r.lo ≤ x ∧ x ≤ r.hi)

/-- Membership of an address in the set denoted by an interval list, the spec's
`contains(addr)`. -/
def containsL (l : IPRangeList) (x : Nat) : Bool :=
  l.any (fun r => inRange r x)

/-- Modelled from the spec: the pieces of interval `r` left after removing the
addresses of interval `x`, used by `subtract(otherRanges)`. -/
def subtractRange (r x : IPRange) : IPRangeList :=
  if r.hi < x.lo ∨ x.hi < r.lo then [r]
  else
    (if r.lo < x.lo then [IPRange.mk r.lo (x.lo - 1)] else []) ++
    (if x.hi < r.hi then [IPRange.mk (x.hi + 1) r.hi] else [])

/-- Modelled from the spec: removal of every address of interval `x` from an
interval list. -/
def subtractOne (l : IPRangeList) (x : IPRange) : IPRangeList :=
  l.flatMap (fun r => subtractRange r x)

/-- Modelled from the spec: `subtract(otherRanges)`, removing every address
covered by `sub` from `l`; intervals may be split or fully removed. -/
def subtractList (l : IPRangeList) (sub : IPRangeList) : IPRangeList :=
  sub.foldl subtractOne l

/-- Modelled from the spec: `allocateAny()`, removing and returning one address
from the list; fails exactly when the list is empty.  The spec leaves the
choice policy open (§9), so the model takes the first address of the first
interval. -/
def allocateAny : IPRangeList → Option (Nat × IPRangeList)
  | [] => none
  | r :: rest => some (r.lo, if r.lo < r.hi then IPRange.mk (r.lo + 1) r.hi :: rest else rest)

/-- Association-list lookup, the model of Go map indexing. -/
def mapLookup {α β : Type} [DecidableEq α] : List (α × β) → α → Option β
  | [], _ => none
  | (k, v) :: rest, x => if k = x then some v else mapLookup rest x

/-- Association-list update, the model of Go map assignment: replaces the
binding of the key when present, appends it otherwise. -/
def mapInsert {α β : Type} [DecidableEq α] : List (α × β) → α → β → List (α × β)
  | [], k, v => [(k, v)]
  | (k', v') :: rest, k, v =>
    if k' = k then (k, v) :: rest else (k', v') :: mapInsert rest k v

/-- Association-list removal, the model of Go `delete(m, k)`. -/
def mapErase {α β : Type} [DecidableEq α] (l : List (α × β)) (k : α) : List (α × β) :=
  l.filter (fun kv => kv.1 ≠ k)

/-- Character membership in a string, the model of the library's contains. -/
def strContains (s : String) (c : Char) : Bool :=
  s.data.contains c

/-- Separator split on a string, the model of Go's `strings.Split`; splitting
never yields an empty list. -/
def splitOnChar (sep : Char) : List Char → List (List Char)
  | [] => [[]]
  | c :: rest =>
    let r := splitOnChar sep rest
    if c = sep then [] :: r
    else
      match r with
      | [] => [[c]]
      | g :: gs => (c :: g) :: gs

/-- String form of `splitOnChar`. -/
def strSplit (s : String) (sep : Char) : List String :=
  (splitOnChar sep s.data).map String.mk

/-- Decimal numeral parser for the textual address layer. -/
def parseNat? (s : String) : Option Nat :=
  if s.data ≠ [] ∧ s.data.all Char.isDigit then
    some (s.data.foldl (fun n c => n * 10 + (c.toNat - 48)) 0)
  else none

/-- Colon removal, bridging the IPv6 textual marker to the numeric value. -/
def stripColons (s : String) : String :=
  String.mk (s.data.filter (fun c => c ≠ ':'))

/-- Modelled from the spec: the numeric value of a single-family address
string (`util`'s address parsing is not under `src/`). -/
def parseAddr? (s : String) : Option Nat :=
  parseNat? (stripColons s)

/-- Modelled from the spec: `util.CheckProtocol`, recognizing the family of an
address or CIDR string: a dual value is a comma-joined pair, an IPv6 value
carries a colon, anything else is IPv4. -/
def addrFamily (s : String) : Protocol :=
  if strContains s ',' then Protocol.Dual
  else if strContains s ':' then Protocol.IPv6
  else Protocol.IPv4

/-- Modelled from the spec: a CIDR string denotes the interval of its usable
addresses, written `first-last` (`net.ParseCIDR`/`util.FirstSubnetIP`/
`util.LastIP` are not under `src/`). -/
def parseRange? (s : String) : Option IPRange :=
  match strSplit (stripColons s) '-' with
  | [a, b] =>
    match parseNat? a, parseNat? b with
    | some x, some y => some (IPRange.mk x y)
    | _, _ => none
  | _ => none

/-- Modelled from the spec: `util.CheckDualCidrs`, splitting a dual CIDR into
its v4 and v6 halves and failing when either half fails to parse or the pair
is structurally invalid. -/
def checkDualCidrs (s : String) : Option (String × String) :=
  match strSplit s ',' with
  | [a, b] =>
    if addrFamily a = Protocol.IPv4 ∧ (parseRange? a).isSome ∧
        addrFamily b = Protocol.IPv6 ∧ (parseRange? b).isSome then
      some (a, b)
    else none
  | _ => none

/-- CIDR validation as performed at the head of `IPAM.AddOrUpdateSubnet` in
`src/`: a dual CIDR goes through `CheckDualCidrs`, a single-family CIDR
through `net.ParseCIDR`; the result carries the v4 and v6 CIDR strings used by
the rest of the function. -/
def parseCidrs (cidrStr : String) : Option (String × String) :=
  if addrFamily cidrStr = Protocol.Dual then checkDualCidrs cidrStr
  else if (parseRange? cidrStr).isSome then some (cidrStr, cidrStr) else none

/-- Modelled from the spec: `splitIpsByProtocol`, partitioning an exclusion
list by family (the function is called from `src/` but defined elsewhere). -/
def splitIpsByProtocol (ips : List String) : List String × List String :=
  (ips.filter (fun s => !(strContains s ':')), ips.filter (fun s => strContains s ':'))

/-- Modelled from the spec: `convertExcludeIps`, turning the textual exclusion
list into the reserved interval list; each entry is a single address. -/
def convertExcludeIps (ips : List String) : IPRangeList :=
  ips.filterMap (fun s =>
    match parseAddr? s with
    | some v => some (IPRange.mk v v)
    | none => none)

/-- Modelled from the spec: the per-family half of a `Subnet` (the `Subnet`
struct is not under `src/`): the administrative usable range, the reserved
interval list, the free interval list, and the owner bookkeeping
`ownerToAddress` / `addressToOwner` (`V4PodToIP` / `V4IPToPod` and the v6
twins in the code's naming). -/
structure FamilyState where
  cidr : IPRange
  reserved : IPRangeList
  free : IPRangeList
  podToIP : List (String × Nat)
  ipToPod : List (Nat × String)
deriving DecidableEq

/-- Modelled from the spec: one administrative subnet with its protocol, its
two per-family halves, and the shared MAC bookkeeping (`PodToMac` /
`MacToPod`), one MAC per owner across both families. -/
structure Subnet where
  name : String
  protocol : Protocol
  v4 : FamilyState
  v6 : FamilyState
  podToMac : List (String × String)
  macToPod : List (String × String)
deriving DecidableEq

/-- Family-indexed access to a subnet's per-family state. -/
def Subnet.fam (s : Subnet) : Family → FamilyState
  | Family.v4 => s.v4
  | Family.v6 => s.v6

/-- Family-indexed replacement of a subnet's per-family state. -/
def Subnet.setFam (s : Subnet) : Family → FamilyState → Subnet
  | Family.v4, fs => { s with v4 := fs }
  | Family.v6, fs => { s with v6 := fs }

/-- MAC currently recorded for an owner, the Go map read `subnet.PodToMac[pod]`
with its empty-string zero value. -/
def macOf (s : Subnet) (pod : String) : String :=
  match mapLookup s.podToMac pod with
  | some m => m
  | none => ""

/-- Interval value of an already-validated CIDR string, the combination
`util.FirstSubnetIP`/`util.LastIP` used by the reconfiguration branch. -/
def rangeOf (s : String) : IPRange :=
  match parseRange? s with
  | some r => r
  | none => IPRange.mk 1 0

/-- Modelled from the spec: MAC reuse-or-generate of §4.2; the generated value
only needs to be some fresh string, no claim constrains its shape. -/
def reuseOrGenMac (s : Subnet) (pod : String) : String :=
  match mapLookup s.podToMac pod with
  | some m => m
  | none => "mac-" ++ toString s.macToPod.length

/-- Modelled from the spec: commit of one successful per-family assignment:
the free list is replaced by `newFree` and all four bookkeeping maps are
re-recorded (§4.2 "Record bookkeeping ... and return"). -/
def commit (s : Subnet) (f : Family) (pod : String) (ip : Nat) (mac : String)
    (newFree : IPRangeList) : Subnet :=
  let fs := s.fam f
  let s1 := { s with podToMac := mapInsert s.podToMac pod mac,
                     macToPod := mapInsert s.macToPod mac pod }
  s1.setFam f { fs with free := newFree,
                        podToIP := mapInsert fs.podToIP pod ip,
                        ipToPod := mapInsert fs.ipToPod ip pod }

/-- MAC chosen by an assignment: the caller's MAC when given, else reuse or
generate, §4.2's "MAC handling identical to the random path". -/
def macPick (s : Subnet) (pod mac : String) : String :=
  if mac ≠ "" then mac else reuseOrGenMac s pod

/-- Modelled from the spec: the recording phase of `allocateStatic` (§4.2):
an address inside `reserved` is recorded without touching `free` (exclusion is
independent of assignment); otherwise the address must be taken out of `free`
(`allocateExact`), and when it is in neither the call fails `NoAvailable`. -/
def staticRecord (s : Subnet) (f : Family) (pod : String) (ip : Nat) (mac : String) :
    (String × Option IpamError) × Subnet :=
  if containsL (s.fam f).reserved ip then
    ((macPick s pod mac, none), commit s f pod ip (macPick s pod mac) ((s.fam f).free))
  else if containsL (s.fam f).free ip then
    ((macPick s pod mac, none),
      commit s f pod ip (macPick s pod mac) (subtractOne ((s.fam f).free) (IPRange.mk ip ip)))
  else
    ((macPick s pod mac, some IpamError.noAvailable), s)

/-- Modelled from the spec: the per-family core of `Subnet.GetStaticAddress`
(§4.2 `allocateStatic`): out-of-CIDR fails `OutOfRange`; an address owned by a
different owner fails `Conflict`; a repeated request by the same owner without
the reconciliation flag is answered without mutation; otherwise (fresh
request, or reconciliation re-run of §4.3 step 4) the assignment is recorded,
which removes the address from `free` and re-establishes the free/assigned
disjointness after a rebuild. -/
def staticCore (s : Subnet) (f : Family) (pod : String) (ip : Nat) (mac : String)
    (force : Bool) : (String × Option IpamError) × Subnet :=
  if inRange (s.fam f).cidr ip then
    match mapLookup (s.fam f).ipToPod ip with
    | some q =>
      if q ≠ pod then ((mac, some IpamError.conflict), s)
      else if force then staticRecord s f pod ip mac
      else ((mac, none), s)
    | none => staticRecord s f pod ip mac
  else ((mac, some IpamError.outOfRange), s)

/-- Result triple of `Subnet.GetStaticAddress`, matching the Go return
`(IP, string, error)`. -/
structure StaticResult where
  ip : String
  mac : String
  err : Option IpamError
deriving DecidableEq

/-- Modelled from the spec: `Subnet.GetStaticAddress` (not under `src/`):
recognizes the family of the textual address and runs the per-family core; an
unparsable or mismatched value cannot lie in any family CIDR and fails
`OutOfRange`. -/
def Subnet.GetStaticAddress (s : Subnet) (pod ipStr mac : String) (force : Bool) :
    StaticResult × Subnet :=
  match addrFamily ipStr, parseAddr? ipStr with
  | Protocol.IPv4, some v =>
    let r := staticCore s Family.v4 pod v mac force
    (StaticResult.mk ipStr r.1.1 r.1.2, r.2)
  | Protocol.IPv6, some v =>
    let r := staticCore s Family.v6 pod v mac force
    (StaticResult.mk ipStr r.1.1 r.1.2, r.2)
  | _, _ => (StaticResult.mk ipStr mac (some IpamError.outOfRange), s)

/-- Result quadruple of the registry allocation entry points, matching the Go
return `(v4IP, v6IP, mac, error)` with empty strings for absent values. -/
structure AllocResult where
  v4 : String
  v6 : String
  mac : String
  err : Option IpamError
deriving DecidableEq

/-- Textual form of a v4 address value. -/
def showV4 (n : Nat) : String := toString n

/-- Textual form of a v6 address value (the colon is the family marker). -/
def showV6 (n : Nat) : String := ":" ++ toString n

/-- Modelled from the spec: `Subnet.GetRandomAddress` (§4.2 `allocateRandom`,
not under `src/`): an owner that already holds the subnet's assignments gets
them back unchanged; otherwise one address per supported family is taken from
`free` (`NoAvailable` when empty), with the dual-stack path atomic — a v6
failure rolls the v4 allocation back, which the functional model renders by
returning the original subnet. -/
def Subnet.GetRandomAddress (s : Subnet) (pod : String) : AllocResult × Subnet :=
  match s.protocol with
  | Protocol.IPv4 =>
    match mapLookup s.v4.podToIP pod with
    | some ip => (AllocResult.mk (showV4 ip) "" (macOf s pod) none, s)
    | none =>
      match allocateAny s.v4.free with
      | none => (AllocResult.mk "" "" "" (some IpamError.noAvailable), s)
      | some (ip, free1) =>
        let mac := reuseOrGenMac s pod
        (AllocResult.mk (showV4 ip) "" mac none, commit s Family.v4 pod ip mac free1)
  | Protocol.IPv6 =>
    match mapLookup s.v6.podToIP pod with
    | some ip => (AllocResult.mk "" (showV6 ip) (macOf s pod) none, s)
    | none =>
      match allocateAny s.v6.free with
      | none => (AllocResult.mk "" "" "" (some IpamError.noAvailable), s)
      | some (ip, free1) =>
        let mac := reuseOrGenMac s pod
        (AllocResult.mk "" (showV6 ip) mac none, commit s Family.v6 pod ip mac free1)
  | Protocol.Dual =>
    match mapLookup s.v4.podToIP pod, mapLookup s.v6.podToIP pod with
    | some ip4, some ip6 =>
      (AllocResult.mk (showV4 ip4) (showV6 ip6) (macOf s pod) none, s)
    | _, _ =>
      match allocateAny s.v4.free with
      | none => (AllocResult.mk "" "" "" (some IpamError.noAvailable), s)
      | some (ip4, free4) =>
        match allocateAny s.v6.free with
        | none => (AllocResult.mk "" "" "" (some IpamError.noAvailable), s)
        | some (ip6, free6) =>
          let mac := reuseOrGenMac s pod
          let s1 := commit s Family.v4 pod ip4 mac free4
          let s2 := commit s1 Family.v6 pod ip6 mac free6
          (AllocResult.mk (showV4 ip4) (showV6 ip6) mac none, s2)

/-- Modelled from the spec: `Subnet.GetPodAddress` (not under `src/`),
returning the owner's v4 and v6 textual addresses (empty when absent, the Go
map zero value), the owner's MAC, and the subnet's protocol, as consumed by
the registry loop in `src/`. -/
def Subnet.GetPodAddress (s : Subnet) (pod : String) : String × String × String × Protocol :=
  let v4 := match mapLookup s.v4.podToIP pod with
    | some ip => showV4 ip
    | none => ""
  let v6 := match mapLookup s.v6.podToIP pod with
    | some ip => showV6 ip
    | none => ""
  (v4, v6, macOf s pod, s.protocol)

/-- Modelled from the spec: a fresh per-family state at subnet creation:
reserved from the exclusion list, free = entire CIDR minus reserved, empty
bookkeeping. -/
def famInit (r : IPRange) (resv : IPRangeList) : FamilyState :=
  FamilyState.mk r resv (subtractList [r] resv) [] []

/-- Per-family state of an unsupported family: empty range, nothing free. -/
def emptyFam : FamilyState :=
  FamilyState.mk (IPRange.mk 1 0) [] [] [] []

/-- Modelled from the spec: `NewSubnet` (not under `src/`): parses the CIDR
(failure yields `InvalidCIDR`), builds each supported family from the
exclusion list, and starts with empty bookkeeping. -/
def NewSubnet (name cidrStr : String) (excludeIps : List String) : Except IpamError Subnet :=
  match parseCidrs cidrStr with
  | none => Except.error IpamError.invalidCIDR
  | some (v4s, v6s) =>
    let protocol := addrFamily cidrStr
    let ex := splitIpsByProtocol excludeIps
    let f4 := if protocol = Protocol.Dual ∨ protocol = Protocol.IPv4 then
        famInit (rangeOf v4s) (convertExcludeIps ex.1)
      else emptyFam
    let f6 := if protocol = Protocol.Dual ∨ protocol = Protocol.IPv6 then
        famInit (rangeOf v6s) (convertExcludeIps ex.2)
      else emptyFam
    Except.ok (Subnet.mk name protocol f4 f6 [] [])

/-- Modelled from the spec: `Subnet.joinFreeWithReserve` (called from the
reconfiguration branch in `src/` right after the free-list rebuild): subtracts
each family's reserved list from that family's free list, §4.3 step 2. -/
def joinFreeWithReserve (s : Subnet) : Subnet :=
  Subnet.mk s.name s.protocol
    (FamilyState.mk s.v4.cidr s.v4.reserved (subtractList s.v4.free s.v4.reserved)
      s.v4.podToIP s.v4.ipToPod)
    (FamilyState.mk s.v6.cidr s.v6.reserved (subtractList s.v6.free s.v6.reserved)
      s.v6.podToIP s.v6.ipToPod)
    s.podToMac s.macToPod

/-- One step of the §4.3 reconciliation loop in `src/`: re-run the static
assignment of one recorded owner with the reconciliation flag, reading the
owner's MAC from the subnet, and keep the subnet whatever the validation
outcome (the error is only logged). -/
def reconcileStep (f : Family) (s : Subnet) (pi : String × Nat) : Subnet :=
  (staticCore s f pi.1 pi.2 (macOf s pi.1) true).2

/-- Reconciliation loop of §4.3 step 4, as iterated in `src/` over the
family's owner bookkeeping. -/
def reconcileFamily (f : Family) (l : List (String × Nat)) (s : Subnet) : Subnet :=
  l.foldl (reconcileStep f) s

/-- Per-family reconfiguration as written in the `src/` reconfiguration
branch: reserved is recomputed from the exclusion list, free is rebuilt as the
single interval of the new CIDR, `joinFreeWithReserve` subtracts reserved, and
every recorded owner is re-validated.  The stored per-family CIDR (not visible
in `src/`) is refreshed alongside, per §4.3, which validates assignments
against the new CIDR. -/
def reconfigFam (s : Subnet) (f : Family) (r : IPRange) (resv : IPRangeList) : Subnet :=
  let s1 := joinFreeWithReserve
    (s.setFam f { s.fam f with reserved := resv, cidr := r, free := [r] })
  reconcileFamily f ((s1.fam f).podToIP) s1

/-- Reconfiguration of an existing subnet, the `src/` branch guarded by
`protocol == Dual || protocol == IPv4` and its v6 twin, always succeeding. -/
def reconfigureSubnet (s : Subnet) (protocol : Protocol) (v4s v6s : String)
    (v4Ex v6Ex : List String) : Subnet :=
  let s0 := { s with protocol := protocol }
  let s1 := if protocol = Protocol.Dual ∨ protocol = Protocol.IPv4 then
      reconfigFam s0 Family.v4 (rangeOf v4s) (convertExcludeIps v4Ex)
    else s0
  if protocol = Protocol.Dual ∨ protocol = Protocol.IPv6 then
    reconfigFam s1 Family.v6 (rangeOf v6s) (convertExcludeIps v6Ex)
  else s1

/-- The registry: a name-keyed collection of subnets, `IPAM` in `src/`. -/
structure IPAM where
  subnets : List (String × Subnet)
deriving DecidableEq

/-- Fresh registry, `NewIPAM` in `src/`. -/
def NewIPAM : IPAM := IPAM.mk []

/-- Transcribed from `src/`: `IPAM.GetRandomAddress`: a missing subnet fails
`NoAvailable` with empty results and no state change; otherwise the subnet
allocates and the registry returns its results unmodified. -/
def IPAM.GetRandomAddress (ipam : IPAM) (pod subnetName : String) : AllocResult × IPAM :=
  match mapLookup ipam.subnets subnetName with
  | none => (AllocResult.mk "" "" "" (some IpamError.noAvailable), ipam)
  | some s =>
    let r := s.GetRandomAddress pod
    (r.1, IPAM.mk (mapInsert ipam.subnets subnetName r.2))

/-- Transcribed from `src/`: `IPAM.GetStaticAddress`: a missing subnet fails
`NoAvailable`; a dual address is split on the comma and the two per-family
calls are chained, the returned `mac` and `err` being those of the second
(v6) call — the first (v4) call's error is overwritten, exactly as the Go
`v6IP, mac, err := subnet.GetStaticAddress(...)` does; a single-family address
is placed in the v4 or v6 result slot according to its own protocol. -/
def IPAM.GetStaticAddress (ipam : IPAM) (pod ip mac subnetName : String) : AllocResult × IPAM :=
  match mapLookup ipam.subnets subnetName with
  | none => (AllocResult.mk "" "" "" (some IpamError.noAvailable), ipam)
  | some s =>
    match addrFamily ip with
    | Protocol.Dual =>
      let ips := strSplit ip ','
      let r1 := s.GetStaticAddress pod (ips.getD 0 "") mac false
      let r2 := r1.2.GetStaticAddress pod (ips.getD 1 "") r1.1.mac false
      (AllocResult.mk r1.1.ip r2.1.ip r2.1.mac r2.1.err,
        IPAM.mk (mapInsert ipam.subnets subnetName r2.2))
    | Protocol.IPv4 =>
      let r := s.GetStaticAddress pod ip mac false
      (AllocResult.mk r.1.ip "" r.1.mac r.1.err,
        IPAM.mk (mapInsert ipam.subnets subnetName r.2))
    | Protocol.IPv6 =>
      let r := s.GetStaticAddress pod ip mac false
      (AllocResult.mk "" r.1.ip r.1.mac r.1.err,
        IPAM.mk (mapInsert ipam.subnets subnetName r.2))

/-- Transcribed from `src/`: `IPAM.AddOrUpdateSubnet`: the CIDR is validated
first and failure returns `InvalidCIDR` with the registry untouched; an
existing subnet is reconfigured in place and the call succeeds; an unseen name
gets a fresh subnet. -/
def IPAM.AddOrUpdateSubnet (ipam : IPAM) (name cidrStr : String)
    (excludeIps : List String) : IPAM × Option IpamError :=
  match parseCidrs cidrStr with
  | none => (ipam, some IpamError.invalidCIDR)
  | some (v4s, v6s) =>
    let protocol := addrFamily cidrStr
    let ex := splitIpsByProtocol excludeIps
    match mapLookup ipam.subnets name with
    | some s =>
      (IPAM.mk (mapInsert ipam.subnets name (reconfigureSubnet s protocol v4s v6s ex.1 ex.2)),
        none)
    | none =>
      match NewSubnet name cidrStr excludeIps with
      | Except.error e => (ipam, some e)
      | Except.ok s => (IPAM.mk (mapInsert ipam.subnets name s), none)

/-- Transcribed from `src/`: `IPAM.DeleteSubnet`: unconditional removal of the
named entry, never failing. -/
def IPAM.DeleteSubnet (ipam : IPAM) (subnetName : String) : IPAM :=
  IPAM.mk (mapErase ipam.subnets subnetName)

/-- One entry of the `IPAM.GetPodAddress` result, `SubnetAddress` in `src/`
(the Go struct holds a pointer to the subnet). -/
structure SubnetAddress where
  subnet : Subnet
  ip : String
  mac : String
deriving DecidableEq

/-- One iteration of the `IPAM.GetPodAddress` loop in `src/`: append the v4
entry for an IPv4 subnet, the v6 entry for an IPv6 subnet, and both for a
dual subnet — unconditionally. -/
def podAddressStep (pod : String) (acc : List SubnetAddress) (kv : String × Subnet) :
    List SubnetAddress :=
  if kv.2.protocol = Protocol.IPv4 then
    acc ++ [SubnetAddress.mk kv.2 (kv.2.GetPodAddress pod).1 (kv.2.GetPodAddress pod).2.2.1]
  else if kv.2.protocol = Protocol.IPv6 then
    acc ++ [SubnetAddress.mk kv.2 (kv.2.GetPodAddress pod).2.1 (kv.2.GetPodAddress pod).2.2.1]
  else
    acc ++ [SubnetAddress.mk kv.2 (kv.2.GetPodAddress pod).1 (kv.2.GetPodAddress pod).2.2.1,
      SubnetAddress.mk kv.2 (kv.2.GetPodAddress pod).2.1 (kv.2.GetPodAddress pod).2.2.1]

/-- Transcribed from `src/`: `IPAM.GetPodAddress`: for every subnet of the
registry one entry is appended for a single-family subnet (v4 slot for IPv4,
v6 slot for IPv6) and two entries for a dual subnet, with no check that the
owner holds an address there. -/
def IPAM.GetPodAddress (ipam : IPAM) (pod : String) : List SubnetAddress :=
  ipam.subnets.foldl (podAddressStep pod) []

/-- Gateway-mode and NAT data of one subnet definition as consumed by the
daemon controller (`subnet.Spec` fields read in `src/pkg/daemon/gateway.go`). -/
structure GwSubnet where
  protocol : String
  cidrBlock : String
deriving DecidableEq

/-- Configuration fields of the daemon controller read by `getSubnetsCIDR`. -/
structure GwConfig where
  serviceClusterIPRange : String
  nodeLocalDNSIP : String
deriving DecidableEq

/-- Daemon controller state needed by `getSubnetsCIDR`: its configuration and
the subnet definitions its lister returns. -/
structure Controller where
  config : GwConfig
  subnets : List GwSubnet
deriving DecidableEq

/-- Transcribed from `src/`: `Controller.getSubnetsCIDR`: starts from the
service cluster IP range, appends the node-local DNS IP when it is set and
parses as an IP (`net.ParseIP` is external, taken as the predicate
`parseIPOk`), then appends the CIDR block of every subnet whose protocol
matches. -/
def Controller.getSubnetsCIDR (c : Controller) (parseIPOk : String → Bool)
    (protocol : String) : List String :=
  ([c.config.serviceClusterIPRange] ++
    (if c.config.nodeLocalDNSIP ≠ "" ∧ parseIPOk c.config.nodeLocalDNSIP then
      [c.config.nodeLocalDNSIP]
    else [])) ++
  (c.subnets.filter (fun s => s.protocol == protocol)).map GwSubnet.cidrBlock

/-! Association-list lemmas. -/

theorem mapLookup_insert_self {α β : Type} [DecidableEq α] (l : List (α × β)) (k : α) (v : β) :
    mapLookup (mapInsert l k v) k = some v := by
  induction l with
  | nil => simp [mapInsert, mapLookup]
  | cons kv rest ih =>
    obtain ⟨k', v'⟩ := kv
    by_cases h : k' = k
    · simp [mapInsert, h, mapLookup]
    · simp [mapInsert, h, mapLookup, ih]

theorem mapLookup_insert_other {α β : Type} [DecidableEq α] (l : List (α × β)) (k k' : α)
    (v : β) (h : k' ≠ k) : mapLookup (mapInsert l k v) k' = mapLookup l k' := by
  induction l with
  | nil =>
    simp only [mapInsert, mapLookup]
    rw [if_neg (fun hh : k = k' => h hh.symm)]
  | cons kv rest ih =>
    obtain ⟨k0, v0⟩ := kv
    by_cases h0 : k0 = k
    · subst h0
      simp only [mapInsert, if_pos rfl, mapLookup]
      rw [if_neg (fun hh : k0 = k' => h hh.symm), if_neg (fun hh : k0 = k' => h hh.symm)]
    · simp only [mapInsert, if_neg h0, mapLookup]
      by_cases h1 : k0 = k'
      · simp [h1]
      · simp [h1, ih]

theorem mapErase_cons_self {α β : Type} [DecidableEq α] (k0 : α) (v0 : β)
    (rest : List (α × β)) (k : α) (h : k0 = k) :
    mapErase ((k0, v0) :: rest) k = mapErase rest k := by
  simp [mapErase, h]

theorem mapErase_cons_other {α β : Type} [DecidableEq α] (k0 : α) (v0 : β)
    (rest : List (α × β)) (k : α) (h : ¬ k0 = k) :
    mapErase ((k0, v0) :: rest) k = (k0, v0) :: mapErase rest k := by
  simp [mapErase, h]

theorem mapLookup_erase_self {α β : Type} [DecidableEq α] (l : List (α × β)) (k : α) :
    mapLookup (mapErase l k) k = none := by
  induction l with
  | nil => rfl
  | cons kv rest ih =>
    obtain ⟨k0, v0⟩ := kv
    by_cases h0 : k0 = k
    · rw [mapErase_cons_self k0 v0 rest k h0]
      exact ih
    · rw [mapErase_cons_other k0 v0 rest k h0]
      simp only [mapLookup, if_neg h0]
      exact ih

theorem mapLookup_erase_other {α β : Type} [DecidableEq α] (l : List (α × β)) (k k' : α)
    (h : k' ≠ k) : mapLookup (mapErase l k) k' = mapLookup l k' := by
  induction l with
  | nil => rfl
  | cons kv rest ih =>
    obtain ⟨k0, v0⟩ := kv
    by_cases h0 : k0 = k
    · rw [mapErase_cons_self k0 v0 rest k h0]
      simp only [mapLookup]
      rw [if_neg (fun hh : k0 = k' => h (hh.symm.trans h0))]
      exact ih
    · rw [mapErase_cons_other k0 v0 rest k h0]
      simp only [mapLookup]
      by_cases h1 : k0 = k'
      · simp [h1]
      · simp [h1, ih]

theorem mapLookup_eq_of_mem_nodup {α β : Type} [DecidableEq α] (l : List (α × β))
    (h : (l.map Prod.fst).Nodup) (k : α) (v : β) (hm : (k, v) ∈ l) :
    mapLookup l k = some v := by
  induction l with
  | nil => cases hm
  | cons kv rest ih =>
    obtain ⟨k0, v0⟩ := kv
    simp only [List.map_cons, List.nodup_cons] at h
    rcases List.mem_cons.mp hm with heq | hrest
    · cases heq
      simp [mapLookup]
    · have hk : k ≠ k0 := by
        intro hkk
        subst hkk
        exact h.1 (List.mem_map.mpr ⟨(k, v), hrest, rfl⟩)
      simp only [mapLookup, if_neg (fun hh : k0 = k => hk hh.symm)]
      exact ih h.2 hrest

/-! Interval-algebra membership lemmas. -/

theorem containsL_nil (x : Nat) : containsL [] x = false := rfl

theorem containsL_cons (r : IPRange) (l : IPRangeList) (x : Nat) :
    containsL (r :: l) x = (inRange r x || containsL l x) := by
  simp [containsL]

theorem containsL_append (l1 l2 : IPRangeList) (x : Nat) :
    containsL (l1 ++ l2) x = (containsL l1 x || containsL l2 x) := by
  simp [containsL, List.any_append]

theorem containsL_subtractRange (r x : IPRange) (y : Nat) :
    containsL (subtractRange r x) y = true ↔
      (inRange r y = true ∧ inRange x y = false) := by
  unfold subtractRange
  by_cases h : r.hi < x.lo ∨ x.hi < r.lo
  · simp only [if_pos h]
    simp [containsL, inRange]
    omega
  · simp only [if_neg h]
    rw [containsL_append]
    by_cases h1 : r.lo < x.lo <;> by_cases h2 : x.hi < r.hi <;>
      simp [h1, h2, containsL, inRange] <;> omega

theorem containsL_subtractOne (l : IPRangeList) (x : IPRange) (y : Nat) :
    containsL (subtractOne l x) y = true ↔
      (containsL l y = true ∧ inRange x y = false) := by
  induction l with
  | nil => simp [subtractOne, containsL]
  | cons r rest ih =>
    have hsr := containsL_subtractRange r x y
    simp only [subtractOne, List.flatMap_cons] at ih ⊢
    rw [containsL_append, containsL_cons]
    simp only [Bool.or_eq_true] at *
    tauto

theorem containsL_subtractList (sub : IPRangeList) : ∀ (l : IPRangeList) (y : Nat),
    containsL (subtractList l sub) y = true ↔
      (containsL l y = true ∧ containsL sub y = false) := by
  induction sub with
  | nil =>
    intro l y
    simp [subtractList, containsL]
  | cons x rest ih =>
    intro l y
    have hstep : subtractList l (x :: rest) = subtractList (subtractOne l x) rest := rfl
    rw [hstep, ih, containsL_subtractOne, containsL_cons]
    cases hx : inRange x y <;> cases hr : containsL rest y <;> simp [hx, hr]

theorem containsL_subtractOne_self (l : IPRangeList) (ip : Nat) :
    containsL (subtractOne l (IPRange.mk ip ip)) ip = false := by
  cases h : containsL (subtractOne l (IPRange.mk ip ip)) ip
  · rfl
  · exfalso
    have h2 := (containsL_subtractOne l (IPRange.mk ip ip) ip).mp h
    have h3 : inRange (IPRange.mk ip ip) ip = true := by simp [inRange]
    rw [h2.2] at h3
    exact Bool.false_ne_true h3

theorem containsL_subtractOne_shrink (l : IPRangeList) (x : IPRange) (y : Nat)
    (h : containsL (subtractOne l x) y = true) : containsL l y = true :=
  ((containsL_subtractOne l x y).mp h).1

/-! Structural lemmas about the family-indexed accessors and `commit`. -/

theorem fam_setFam_self (s : Subnet) (f : Family) (fs : FamilyState) :
    (s.setFam f fs).fam f = fs := by
  cases f <;> rfl

theorem fam_setFam_other (s : Subnet) (f f' : Family) (fs : FamilyState) (h : f' ≠ f) :
    (s.setFam f fs).fam f' = s.fam f' := by
  cases f <;> cases f' <;> first
    | rfl
    | exact absurd rfl h

theorem fam_protocol_update (s : Subnet) (p : Protocol) (f : Family) :
    (Subnet.mk s.name p s.v4 s.v6 s.podToMac s.macToPod).fam f = s.fam f := by
  cases f <;> rfl

theorem commit_fam_self (s : Subnet) (f : Family) (pod : String) (ip : Nat) (mac : String)
    (nf : IPRangeList) :
    (commit s f pod ip mac nf).fam f =
      FamilyState.mk (s.fam f).cidr (s.fam f).reserved nf
        (mapInsert (s.fam f).podToIP pod ip) (mapInsert (s.fam f).ipToPod ip pod) := by
  cases f <;> rfl

theorem commit_fam_other (s : Subnet) (f f' : Family) (pod : String) (ip : Nat)
    (mac : String) (nf : IPRangeList) (h : f' ≠ f) :
    (commit s f pod ip mac nf).fam f' = s.fam f' := by
  cases f <;> cases f' <;> first
    | rfl
    | exact absurd rfl h

/-- Case analysis of the state returned by `staticCore`: it is either the
input subnet untouched, or a `commit` whose free list is the input free list
(reserved-address path) or the input free list with `ip` removed. -/
theorem staticCore_snd_cases (s : Subnet) (f : Family) (pod : String) (ip : Nat)
    (mac : String) (force : Bool) :
    (staticCore s f pod ip mac force).2 = s ∨
    ((staticCore s f pod ip mac force).2 =
        commit s f pod ip (macPick s pod mac) ((s.fam f).free) ∧
      containsL (s.fam f).reserved ip = true) ∨
    (staticCore s f pod ip mac force).2 =
      commit s f pod ip (macPick s pod mac) (subtractOne ((s.fam f).free) (IPRange.mk ip ip)) := by
  have hrec : (staticRecord s f pod ip mac).2 = s ∨
      ((staticRecord s f pod ip mac).2 =
          commit s f pod ip (macPick s pod mac) ((s.fam f).free) ∧
        containsL (s.fam f).reserved ip = true) ∨
      (staticRecord s f pod ip mac).2 =
        commit s f pod ip (macPick s pod mac)
          (subtractOne ((s.fam f).free) (IPRange.mk ip ip)) := by
    unfold staticRecord
    by_cases hr : containsL (s.fam f).reserved ip
    · right; left
      simp [hr]
    · by_cases hf : containsL (s.fam f).free ip
      · right; right
        simp [hr, hf]
      · left
        simp [hr, hf]
  unfold staticCore
  by_cases h1 : inRange (s.fam f).cidr ip
  · simp only [h1, if_true]
    cases hl : mapLookup (s.fam f).ipToPod ip with
    | none => exact hrec
    | some q =>
      by_cases hq : q ≠ pod
      · left; simp [hq]
      · by_cases hforce : force
        · simpa [hq, hforce] using hrec
        · left; simp [hq, hforce]
  · left; simp [h1]

theorem staticCore_fam_cidr (s : Subnet) (f : Family) (pod : String) (ip : Nat)
    (mac : String) (force : Bool) :
    ((staticCore s f pod ip mac force).2.fam f).cidr = (s.fam f).cidr := by
  rcases staticCore_snd_cases s f pod ip mac force with h | ⟨h, _⟩ | h <;>
    rw [h] <;> simp [commit_fam_self]

theorem staticCore_fam_reserved (s : Subnet) (f : Family) (pod : String) (ip : Nat)
    (mac : String) (force : Bool) :
    ((staticCore s f pod ip mac force).2.fam f).reserved = (s.fam f).reserved := by
  rcases staticCore_snd_cases s f pod ip mac force with h | ⟨h, _⟩ | h <;>
    rw [h] <;> simp [commit_fam_self]

theorem staticCore_fam_other (s : Subnet) (f f' : Family) (pod : String) (ip : Nat)
    (mac : String) (force : Bool) (h : f' ≠ f) :
    (staticCore s f pod ip mac force).2.fam f' = s.fam f' := by
  rcases staticCore_snd_cases s f pod ip mac force with h2 | ⟨h2, _⟩ | h2 <;>
    rw [h2] <;> simp [commit_fam_other _ _ _ _ _ _ _ h]

theorem staticCore_free_shrink (s : Subnet) (f : Family) (pod : String) (ip : Nat)
    (mac : String) (force : Bool) (y : Nat)
    (h : containsL ((staticCore s f pod ip mac force).2.fam f).free y = true) :
    containsL (s.fam f).free y = true := by
  rcases staticCore_snd_cases s f pod ip mac force with h2 | ⟨h2, _⟩ | h2
  · rw [h2] at h
    exact h
  · rw [h2] at h
    simp [commit_fam_self] at h
    exact h
  · rw [h2] at h
    simp [commit_fam_self] at h
    exact containsL_subtractOne_shrink _ _ _ h

theorem staticCore_podToIP_lookup_other (s : Subnet) (f : Family) (pod : String)
    (ip : Nat) (mac : String) (force : Bool) (q : String) (h : q ≠ pod) :
    mapLookup ((staticCore s f pod ip mac force).2.fam f).podToIP q =
      mapLookup (s.fam f).podToIP q := by
  rcases staticCore_snd_cases s f pod ip mac force with h2 | ⟨h2, _⟩ | h2 <;>
    rw [h2] <;> simp [commit_fam_self, mapLookup_insert_other _ _ _ _ h]

theorem staticCore_ipToPod_lookup_other (s : Subnet) (f : Family) (pod : String)
    (ip : Nat) (mac : String) (force : Bool) (j : Nat) (h : j ≠ ip) :
    mapLookup ((staticCore s f pod ip mac force).2.fam f).ipToPod j =
      mapLookup (s.fam f).ipToPod j := by
  rcases staticCore_snd_cases s f pod ip mac force with h2 | ⟨h2, _⟩ | h2 <;>
    rw [h2] <;> simp [commit_fam_self, mapLookup_insert_other _ _ _ _ h]

/-- After a forced (reconciliation) static re-assignment of an owner whose
reverse bookkeeping matches, the owner's address is not in the free list:
this is the per-owner step of the §4.3 disjointness re-establishment. -/
theorem staticCore_force_not_free (s : Subnet) (f : Family) (pod : String) (ip : Nat)
    (mac : String)
    (hcoh : mapLookup (s.fam f).ipToPod ip = some pod)
    (hres : ∀ y, containsL (s.fam f).reserved y = true → containsL (s.fam f).free y = false)
    (hsub : ∀ y, containsL (s.fam f).free y = true → inRange (s.fam f).cidr y = true) :
    containsL ((staticCore s f pod ip mac true).2.fam f).free ip = false := by
  by_cases h1 : inRange (s.fam f).cidr ip
  · unfold staticCore
    rw [hcoh]
    simp only [h1, if_true, ite_not, if_pos rfl]
    unfold staticRecord
    by_cases hr : containsL (s.fam f).reserved ip
    · simp only [hr, if_true]
      simp [commit_fam_self]
      exact hres ip hr
    · by_cases hf : containsL (s.fam f).free ip
      · simp only [hr, if_false, hf, if_true]
        simp [commit_fam_self]
        exact containsL_subtractOne_self _ _
      · simp only [hr, if_false, hf]
        simpa using hf
  · cases hcf : containsL ((staticCore s f pod ip mac true).2.fam f).free ip
    · rfl
    · exfalso
      have := hsub ip (staticCore_free_shrink s f pod ip mac true ip hcf)
      rw [this] at h1
      exact h1 rfl

theorem staticCore_out_of_range_snd (s : Subnet) (f : Family) (pod : String) (ip : Nat)
    (mac : String) (force : Bool) (h : inRange (s.fam f).cidr ip = false) :
    (staticCore s f pod ip mac force).2 = s := by
  unfold staticCore
  simp [h]

/-! Lemmas about the §4.3 reconciliation loop. -/

theorem reconcileFamily_free_shrink (f : Family) (l : List (String × Nat)) :
    ∀ (s : Subnet) (y : Nat),
    containsL ((reconcileFamily f l s).fam f).free y = true →
      containsL ((s.fam f)).free y = true := by
  induction l with
  | nil => intro s y h; exact h
  | cons hd tl ih =>
    intro s y h
    exact staticCore_free_shrink s f hd.1 hd.2 (macOf s hd.1) true y
      (ih (reconcileStep f s hd) y h)

theorem reconcileFamily_fam_other (f f' : Family) (h : f' ≠ f) (l : List (String × Nat)) :
    ∀ (s : Subnet), (reconcileFamily f l s).fam f' = s.fam f' := by
  induction l with
  | nil => intro s; rfl
  | cons hd tl ih =>
    intro s
    rw [show reconcileFamily f (hd :: tl) s = reconcileFamily f tl (reconcileStep f s hd)
      from rfl]
    rw [ih (reconcileStep f s hd)]
    exact staticCore_fam_other s f f' hd.1 hd.2 (macOf s hd.1) true h

/-- Entries of the forward owner map have pairwise distinct addresses whenever
the map's keys are distinct and the reverse map agrees with it — the §3
bookkeeping invariant. -/
theorem snd_nodup_of_coherent (m : List (Nat × String)) :
    ∀ (l : List (String × Nat)),
    (l.map Prod.fst).Nodup →
    (∀ pi, pi ∈ l → mapLookup m pi.2 = some pi.1) →
    (l.map Prod.snd).Nodup := by
  intro l
  induction l with
  | nil =>
    intro _ _
    simp
  | cons hd tl ih =>
    intro hk hc
    simp only [List.map_cons, List.nodup_cons] at hk ⊢
    constructor
    · intro hmem
      rcases List.mem_map.mp hmem with ⟨pj, hpj, hsnd⟩
      have h1 := hc hd (List.mem_cons_self _ _)
      have h2 := hc pj (List.mem_cons_of_mem _ hpj)
      rw [hsnd, h1] at h2
      have hfst : pj.1 = hd.1 := (Option.some.inj h2).symm
      exact hk.1 (List.mem_map.mpr ⟨pj, hpj, hfst⟩)
    · exact ih hk.2 (fun pj hpj => hc pj (List.mem_cons_of_mem _ hpj))

/-- After the reconciliation loop over a coherent owner list, no listed
address remains in the family's free list. -/
theorem reconcileFamily_not_free (f : Family) :
    ∀ (l : List (String × Nat)) (s : Subnet),
    (∀ pi, pi ∈ l → mapLookup (s.fam f).ipToPod pi.2 = some pi.1) →
    ((l.map Prod.snd).Nodup) →
    (∀ y, containsL (s.fam f).free y = true → inRange (s.fam f).cidr y = true) →
    (∀ y, containsL (s.fam f).reserved y = true → containsL (s.fam f).free y = false) →
    ∀ pi, pi ∈ l → containsL ((reconcileFamily f l s).fam f).free pi.2 = false := by
  intro l
  induction l with
  | nil =>
    intro s _ _ _ _ pi hpi
    cases hpi
  | cons hd tl ih =>
    intro s h1 h2 h3 h4 pi hpi
    have hstep : reconcileFamily f (hd :: tl) s = reconcileFamily f tl (reconcileStep f s hd) :=
      rfl
    have hA : containsL ((reconcileStep f s hd).fam f).free hd.2 = false :=
      staticCore_force_not_free s f hd.1 hd.2 (macOf s hd.1)
        (h1 hd (List.mem_cons_self _ _)) h4 h3
    have hshrink : ∀ y, containsL ((reconcileStep f s hd).fam f).free y = true →
        containsL (s.fam f).free y = true :=
      fun y hy => staticCore_free_shrink s f hd.1 hd.2 (macOf s hd.1) true y hy
    have hcidr : ((reconcileStep f s hd).fam f).cidr = (s.fam f).cidr :=
      staticCore_fam_cidr s f hd.1 hd.2 (macOf s hd.1) true
    have hresv : ((reconcileStep f s hd).fam f).reserved = (s.fam f).reserved :=
      staticCore_fam_reserved s f hd.1 hd.2 (macOf s hd.1) true
    have hnd := h2
    simp only [List.map_cons, List.nodup_cons] at hnd
    have h1' : ∀ pj, pj ∈ tl →
        mapLookup ((reconcileStep f s hd).fam f).ipToPod pj.2 = some pj.1 := by
      intro pj hpj
      have hne : pj.2 ≠ hd.2 := by
        intro he
        exact hnd.1 (he ▸ List.mem_map.mpr ⟨pj, hpj, rfl⟩)
      exact (staticCore_ipToPod_lookup_other s f hd.1 hd.2 (macOf s hd.1) true pj.2
        hne).trans (h1 pj (List.mem_cons_of_mem _ hpj))
    have h3' : ∀ y, containsL ((reconcileStep f s hd).fam f).free y = true →
        inRange ((reconcileStep f s hd).fam f).cidr y = true := by
      intro y hy
      rw [hcidr]
      exact h3 y (hshrink y hy)
    have h4' : ∀ y, containsL ((reconcileStep f s hd).fam f).reserved y = true →
        containsL ((reconcileStep f s hd).fam f).free y = false := by
      intro y hy
      rw [hresv] at hy
      cases hfy : containsL ((reconcileStep f s hd).fam f).free y
      · rfl
      · exfalso
        have hc := hshrink y hfy
        rw [h4 y hy] at hc
        exact Bool.false_ne_true hc
    rcases List.mem_cons.mp hpi with he | htl
    · subst he
      rw [hstep]
      cases hfin : containsL ((reconcileFamily f tl (reconcileStep f s pi)).fam f).free pi.2
      · rfl
      · exfalso
        have hc := reconcileFamily_free_shrink f tl (reconcileStep f s pi) pi.2 hfin
        rw [hA] at hc
        exact Bool.false_ne_true hc
    · rw [hstep]
      exact ih (reconcileStep f s hd) h1' hnd.2 h3' h4' pi htl

/-- The reconciliation loop never moves an out-of-CIDR owner record: the
failed validation is only logged and the bookkeeping keeps the owner, §4.3's
deliberate tolerance. -/
theorem reconcileFamily_lookup_preserve (f : Family) (pod : String) (ipv : Nat) :
    ∀ (l : List (String × Nat)) (s : Subnet),
    (∀ j, (pod, j) ∈ l → j = ipv) →
    mapLookup (s.fam f).podToIP pod = some ipv →
    inRange (s.fam f).cidr ipv = false →
    mapLookup ((reconcileFamily f l s).fam f).podToIP pod = some ipv := by
  intro l
  induction l with
  | nil =>
    intro s _ h _
    exact h
  | cons hd tl ih =>
    intro s hl hlook hninr
    obtain ⟨q, j⟩ := hd
    have hstep : reconcileFamily f ((q, j) :: tl) s =
        reconcileFamily f tl (reconcileStep f s (q, j)) := rfl
    rw [hstep]
    by_cases hq : q = pod
    · subst hq
      have hj : j = ipv := hl j (List.mem_cons_self _ _)
      subst hj
      have hnoop : reconcileStep f s (q, j) = s :=
        staticCore_out_of_range_snd s f q j (macOf s q) true hninr
      rw [hnoop]
      exact ih s (fun j2 hj2 => hl j2 (List.mem_cons_of_mem _ hj2)) hlook hninr
    · have hlook1 : mapLookup ((reconcileStep f s (q, j)).fam f).podToIP pod = some ipv :=
        (staticCore_podToIP_lookup_other s f q j (macOf s q) true pod
          (fun hh => hq hh.symm)).trans hlook
      have hninr1 : inRange ((reconcileStep f s (q, j)).fam f).cidr ipv = false := by
        have hc : ((reconcileStep f s (q, j)).fam f).cidr = (s.fam f).cidr :=
          staticCore_fam_cidr s f q j (macOf s q) true
        rw [hc]
        exact hninr
      exact ih (reconcileStep f s (q, j))
        (fun j2 hj2 => hl j2 (List.mem_cons_of_mem _ hj2)) hlook1 hninr1

/-! Lemmas about the per-family reconfiguration. -/

theorem joinFW_fam (s : Subnet) (f : Family) :
    (joinFreeWithReserve s).fam f =
      FamilyState.mk (s.fam f).cidr (s.fam f).reserved
        (subtractList (s.fam f).free (s.fam f).reserved)
        (s.fam f).podToIP (s.fam f).ipToPod := by
  cases f <;> rfl

theorem reconfigFam_eq (s : Subnet) (f : Family) (r : IPRange) (resv : IPRangeList) :
    reconfigFam s f r resv =
      reconcileFamily f
        ((joinFreeWithReserve (s.setFam f
          (FamilyState.mk r resv [r] (s.fam f).podToIP (s.fam f).ipToPod))).fam f).podToIP
        (joinFreeWithReserve (s.setFam f
          (FamilyState.mk r resv [r] (s.fam f).podToIP (s.fam f).ipToPod))) := rfl

theorem rebuilt_fam_self (s : Subnet) (f : Family) (r : IPRange) (resv : IPRangeList) :
    (joinFreeWithReserve (s.setFam f
        (FamilyState.mk r resv [r] (s.fam f).podToIP (s.fam f).ipToPod))).fam f =
      FamilyState.mk r resv (subtractList [r] resv) (s.fam f).podToIP (s.fam f).ipToPod := by
  rw [joinFW_fam, fam_setFam_self]

theorem rebuilt_fam_other (s : Subnet) (f f' : Family) (r : IPRange) (resv : IPRangeList)
    (h : f' ≠ f) :
    (joinFreeWithReserve (s.setFam f
        (FamilyState.mk r resv [r] (s.fam f).podToIP (s.fam f).ipToPod))).fam f' =
      FamilyState.mk (s.fam f').cidr (s.fam f').reserved
        (subtractList (s.fam f').free (s.fam f').reserved)
        (s.fam f').podToIP (s.fam f').ipToPod := by
  rw [joinFW_fam, fam_setFam_other _ _ _ _ h]

/-- Disjointness after one family's reconfiguration: no address recorded for
an owner of that family remains in the rebuilt free list — §4.3's invariant
re-establishment, under the §3 bookkeeping invariants (distinct owners,
forward/reverse agreement). -/
theorem reconfigFam_not_free (s : Subnet) (f : Family) (r : IPRange) (resv : IPRangeList)
    (hcoh : ∀ pi, pi ∈ (s.fam f).podToIP → mapLookup (s.fam f).ipToPod pi.2 = some pi.1)
    (hk : (((s.fam f).podToIP).map Prod.fst).Nodup) :
    ∀ pi, pi ∈ (s.fam f).podToIP →
      containsL ((reconfigFam s f r resv).fam f).free pi.2 = false := by
  intro pi hpi
  rw [reconfigFam_eq]
  refine reconcileFamily_not_free f _ _ ?_ ?_ ?_ ?_ pi ?_
  · intro pj hpj
    rw [rebuilt_fam_self] at hpj ⊢
    exact hcoh pj hpj
  · rw [rebuilt_fam_self]
    exact snd_nodup_of_coherent (s.fam f).ipToPod (s.fam f).podToIP hk hcoh
  · intro y hy
    rw [rebuilt_fam_self] at hy ⊢
    have h1 := ((containsL_subtractList resv [r] y).mp hy).1
    simpa [containsL_cons, containsL_nil] using h1
  · intro y hy
    rw [rebuilt_fam_self] at hy ⊢
    cases hf2 : containsL (subtractList [r] resv) y
    · rfl
    · exfalso
      have h2 := ((containsL_subtractList resv [r] y).mp hf2).2
      rw [h2] at hy
      exact Bool.false_ne_true hy
  · rw [rebuilt_fam_self]
    exact hpi

theorem reconfigFam_fam_other (s : Subnet) (f f' : Family) (r : IPRange)
    (resv : IPRangeList) (h : f' ≠ f) :
    (reconfigFam s f r resv).fam f' =
      FamilyState.mk (s.fam f').cidr (s.fam f').reserved
        (subtractList (s.fam f').free (s.fam f').reserved)
        (s.fam f').podToIP (s.fam f').ipToPod := by
  rw [reconfigFam_eq, reconcileFamily_fam_other f f' h, rebuilt_fam_other s f f' r resv h]

theorem reconfigFam_other_free_shrink (s : Subnet) (f f' : Family) (r : IPRange)
    (resv : IPRangeList) (h : f' ≠ f) (y : Nat)
    (hy : containsL ((reconfigFam s f r resv).fam f').free y = true) :
    containsL (s.fam f').free y = true := by
  rw [reconfigFam_fam_other s f f' r resv h] at hy
  exact ((containsL_subtractList _ _ y).mp hy).1

theorem reconfigFam_free_sub_cidr (s : Subnet) (f : Family) (r : IPRange)
    (resv : IPRangeList) (y : Nat)
    (hy : containsL ((reconfigFam s f r resv).fam f).free y = true) :
    inRange r y = true := by
  rw [reconfigFam_eq] at hy
  have h1 := reconcileFamily_free_shrink f _ _ y hy
  rw [rebuilt_fam_self] at h1
  have h2 := ((containsL_subtractList resv [r] y).mp h1).1
  simpa [containsL_cons, containsL_nil] using h2

theorem reconfigFam_lookup_preserve (s : Subnet) (f : Family) (r : IPRange)
    (resv : IPRangeList) (pod : String) (ipv : Nat)
    (hk : (((s.fam f).podToIP).map Prod.fst).Nodup)
    (hlook : mapLookup (s.fam f).podToIP pod = some ipv)
    (hout : inRange r ipv = false) :
    mapLookup ((reconfigFam s f r resv).fam f).podToIP pod = some ipv := by
  rw [reconfigFam_eq]
  refine reconcileFamily_lookup_preserve f pod ipv _ _ ?_ ?_ ?_
  · intro j hj
    rw [rebuilt_fam_self] at hj
    have h1 := mapLookup_eq_of_mem_nodup (s.fam f).podToIP hk pod j hj
    rw [hlook] at h1
    exact (Option.some.inj h1).symm
  · rw [rebuilt_fam_self]
    exact hlook
  · rw [rebuilt_fam_self]
    exact hout

/-! Lemmas about the whole-subnet reconfiguration branch. -/

theorem reconfigureSubnet_eq_v4only (s : Subnet) (v4s v6s : String)
    (v4Ex v6Ex : List String) :
    reconfigureSubnet s Protocol.IPv4 v4s v6s v4Ex v6Ex =
      reconfigFam (Subnet.mk s.name Protocol.IPv4 s.v4 s.v6 s.podToMac s.macToPod)
        Family.v4 (rangeOf v4s) (convertExcludeIps v4Ex) := by
  rfl

theorem reconfigureSubnet_eq_v6only (s : Subnet) (v4s v6s : String)
    (v4Ex v6Ex : List String) :
    reconfigureSubnet s Protocol.IPv6 v4s v6s v4Ex v6Ex =
      reconfigFam (Subnet.mk s.name Protocol.IPv6 s.v4 s.v6 s.podToMac s.macToPod)
        Family.v6 (rangeOf v6s) (convertExcludeIps v6Ex) := by
  rfl

theorem reconfigureSubnet_eq_dual (s : Subnet) (v4s v6s : String)
    (v4Ex v6Ex : List String) :
    reconfigureSubnet s Protocol.Dual v4s v6s v4Ex v6Ex =
      reconfigFam
        (reconfigFam (Subnet.mk s.name Protocol.Dual s.v4 s.v6 s.podToMac s.macToPod)
          Family.v4 (rangeOf v4s) (convertExcludeIps v4Ex))
        Family.v6 (rangeOf v6s) (convertExcludeIps v6Ex) := by
  rfl

/-- Families of a subnet whose protocol field alone is replaced. -/
theorem fam_v4_eq (t : Subnet) : t.v4 = t.fam Family.v4 := rfl

theorem fam_v6_eq (t : Subnet) : t.v6 = t.fam Family.v6 := rfl

theorem fam_mk_protocol (s : Subnet) (p : Protocol) :
    (Subnet.mk s.name p s.v4 s.v6 s.podToMac s.macToPod).v4 = s.v4 ∧
    (Subnet.mk s.name p s.v4 s.v6 s.podToMac s.macToPod).v6 = s.v6 :=
  ⟨rfl, rfl⟩

/-- Reconfiguration of an affected v4 family leaves no v4-assigned address in
the rebuilt v4 free list. -/
theorem reconfigureSubnet_not_free_v4 (s : Subnet) (p : Protocol) (v4s v6s : String)
    (v4Ex v6Ex : List String)
    (hp : p = Protocol.Dual ∨ p = Protocol.IPv4)
    (hcoh : ∀ pi, pi ∈ s.v4.podToIP → mapLookup s.v4.ipToPod pi.2 = some pi.1)
    (hk : (s.v4.podToIP.map Prod.fst).Nodup) :
    ∀ pi, pi ∈ s.v4.podToIP →
      containsL (reconfigureSubnet s p v4s v6s v4Ex v6Ex).v4.free pi.2 = false := by
  intro pi hpi
  rcases hp with hp | hp
  · subst hp
    rw [reconfigureSubnet_eq_dual]
    cases hfin : containsL ((reconfigFam (reconfigFam
        (Subnet.mk s.name Protocol.Dual s.v4 s.v6 s.podToMac s.macToPod)
        Family.v4 (rangeOf v4s) (convertExcludeIps v4Ex))
        Family.v6 (rangeOf v6s) (convertExcludeIps v6Ex)).v4).free pi.2
    · rfl
    · exfalso
      have h1 : containsL ((reconfigFam
          (Subnet.mk s.name Protocol.Dual s.v4 s.v6 s.podToMac s.macToPod)
          Family.v4 (rangeOf v4s) (convertExcludeIps v4Ex)).v4).free pi.2 = true :=
        reconfigFam_other_free_shrink _ Family.v6 Family.v4 _ _
          (fun hc => Family.noConfusion hc) pi.2 hfin
      have h2 : containsL ((reconfigFam
          (Subnet.mk s.name Protocol.Dual s.v4 s.v6 s.podToMac s.macToPod)
          Family.v4 (rangeOf v4s) (convertExcludeIps v4Ex)).v4).free pi.2 = false :=
        reconfigFam_not_free
          (Subnet.mk s.name Protocol.Dual s.v4 s.v6 s.podToMac s.macToPod)
          Family.v4 (rangeOf v4s) (convertExcludeIps v4Ex) hcoh hk pi hpi
      rw [h2] at h1
      exact Bool.false_ne_true h1
  · subst hp
    rw [reconfigureSubnet_eq_v4only]
    exact reconfigFam_not_free
      (Subnet.mk s.name Protocol.IPv4 s.v4 s.v6 s.podToMac s.macToPod)
      Family.v4 (rangeOf v4s) (convertExcludeIps v4Ex) hcoh hk pi hpi

/-- Reconfiguration of an affected v6 family leaves no v6-assigned address in
the rebuilt v6 free list. -/
theorem reconfigureSubnet_not_free_v6 (s : Subnet) (p : Protocol) (v4s v6s : String)
    (v4Ex v6Ex : List String)
    (hp : p = Protocol.Dual ∨ p = Protocol.IPv6)
    (hcoh : ∀ pi, pi ∈ s.v6.podToIP → mapLookup s.v6.ipToPod pi.2 = some pi.1)
    (hk : (s.v6.podToIP.map Prod.fst).Nodup) :
    ∀ pi, pi ∈ s.v6.podToIP →
      containsL (reconfigureSubnet s p v4s v6s v4Ex v6Ex).v6.free pi.2 = false := by
  intro pi hpi
  rcases hp with hp | hp
  · subst hp
    rw [reconfigureSubnet_eq_dual]
    have hmid := reconfigFam_fam_other
      (Subnet.mk s.name Protocol.Dual s.v4 s.v6 s.podToMac s.macToPod)
      Family.v4 Family.v6 (rangeOf v4s) (convertExcludeIps v4Ex)
      (fun hc => Family.noConfusion hc)
    refine reconfigFam_not_free
      (reconfigFam (Subnet.mk s.name Protocol.Dual s.v4 s.v6 s.podToMac s.macToPod)
        Family.v4 (rangeOf v4s) (convertExcludeIps v4Ex))
      Family.v6 (rangeOf v6s) (convertExcludeIps v6Ex) ?_ ?_ pi ?_
    · intro pj hpj
      rw [hmid] at hpj ⊢
      exact hcoh pj hpj
    · rw [hmid]
      exact hk
    · rw [hmid]
      exact hpi
  · subst hp
    rw [reconfigureSubnet_eq_v6only]
    exact reconfigFam_not_free
      (Subnet.mk s.name Protocol.IPv6 s.v4 s.v6 s.podToMac s.macToPod)
      Family.v6 (rangeOf v6s) (convertExcludeIps v6Ex) hcoh hk pi hpi

/-- Reconfiguration of an affected v4 family keeps an out-of-new-CIDR owner
record in the bookkeeping (§4.3's deliberate tolerance) and outside the
rebuilt free list. -/
theorem reconfigureSubnet_tolerates_v4 (s : Subnet) (p : Protocol) (v4s v6s : String)
    (v4Ex v6Ex : List String) (pod : String) (ipv : Nat)
    (hp : p = Protocol.Dual ∨ p = Protocol.IPv4)
    (hk : (s.v4.podToIP.map Prod.fst).Nodup)
    (hlook : mapLookup s.v4.podToIP pod = some ipv)
    (hout : inRange (rangeOf v4s) ipv = false) :
    mapLookup (reconfigureSubnet s p v4s v6s v4Ex v6Ex).v4.podToIP pod = some ipv ∧
    containsL (reconfigureSubnet s p v4s v6s v4Ex v6Ex).v4.free ipv = false := by
  rcases hp with hp | hp
  · subst hp
    rw [reconfigureSubnet_eq_dual]
    have hmid := reconfigFam_fam_other
      (reconfigFam (Subnet.mk s.name Protocol.Dual s.v4 s.v6 s.podToMac s.macToPod)
        Family.v4 (rangeOf v4s) (convertExcludeIps v4Ex))
      Family.v6 Family.v4 (rangeOf v6s) (convertExcludeIps v6Ex)
      (fun hc => Family.noConfusion hc)
    have h1 : mapLookup ((reconfigFam
        (Subnet.mk s.name Protocol.Dual s.v4 s.v6 s.podToMac s.macToPod)
        Family.v4 (rangeOf v4s) (convertExcludeIps v4Ex)).v4).podToIP pod = some ipv :=
      reconfigFam_lookup_preserve
        (Subnet.mk s.name Protocol.Dual s.v4 s.v6 s.podToMac s.macToPod)
        Family.v4 (rangeOf v4s) (convertExcludeIps v4Ex) pod ipv hk hlook hout
    constructor
    · rw [fam_v4_eq, hmid]
      exact h1
    · cases hfin : containsL ((reconfigFam (reconfigFam
          (Subnet.mk s.name Protocol.Dual s.v4 s.v6 s.podToMac s.macToPod)
          Family.v4 (rangeOf v4s) (convertExcludeIps v4Ex))
          Family.v6 (rangeOf v6s) (convertExcludeIps v6Ex)).v4).free ipv
      · rfl
      · exfalso
        have h2 : containsL ((reconfigFam
            (Subnet.mk s.name Protocol.Dual s.v4 s.v6 s.podToMac s.macToPod)
            Family.v4 (rangeOf v4s) (convertExcludeIps v4Ex)).v4).free ipv = true :=
          reconfigFam_other_free_shrink _ Family.v6 Family.v4 _ _
            (fun hc => Family.noConfusion hc) ipv hfin
        have h3 := reconfigFam_free_sub_cidr
          (Subnet.mk s.name Protocol.Dual s.v4 s.v6 s.podToMac s.macToPod)
          Family.v4 (rangeOf v4s) (convertExcludeIps v4Ex) ipv h2
        rw [hout] at h3
        exact Bool.false_ne_true h3
  · subst hp
    rw [reconfigureSubnet_eq_v4only]
    constructor
    · exact reconfigFam_lookup_preserve
        (Subnet.mk s.name Protocol.IPv4 s.v4 s.v6 s.podToMac s.macToPod)
        Family.v4 (rangeOf v4s) (convertExcludeIps v4Ex) pod ipv hk hlook hout
    · cases hfin : containsL ((reconfigFam
          (Subnet.mk s.name Protocol.IPv4 s.v4 s.v6 s.podToMac s.macToPod)
          Family.v4 (rangeOf v4s) (convertExcludeIps v4Ex)).v4).free ipv
      · rfl
      · exfalso
        have h3 := reconfigFam_free_sub_cidr
          (Subnet.mk s.name Protocol.IPv4 s.v4 s.v6 s.podToMac s.macToPod)
          Family.v4 (rangeOf v4s) (convertExcludeIps v4Ex) ipv hfin
        rw [hout] at h3
        exact Bool.false_ne_true h3

/-! Registry-level equation lemmas for the `src/` entry points. -/

theorem addOrUpdateSubnet_reconfig_eq (ipam : IPAM) (name cidrStr : String)
    (ex : List String) (s : Subnet) (v4s v6s : String)
    (hp : parseCidrs cidrStr = some (v4s, v6s))
    (hs : mapLookup ipam.subnets name = some s) :
    ipam.AddOrUpdateSubnet name cidrStr ex =
      (IPAM.mk (mapInsert ipam.subnets name
        (reconfigureSubnet s (addrFamily cidrStr) v4s v6s
          (splitIpsByProtocol ex).1 (splitIpsByProtocol ex).2)), none) := by
  unfold IPAM.AddOrUpdateSubnet
  simp only [hp, hs]

theorem getRandomAddress_missing_eq (ipam : IPAM) (pod subnetName : String)
    (h : mapLookup ipam.subnets subnetName = none) :
    ipam.GetRandomAddress pod subnetName =
      (AllocResult.mk "" "" "" (some IpamError.noAvailable), ipam) := by
  unfold IPAM.GetRandomAddress
  rw [h]

theorem getStaticAddress_missing_eq (ipam : IPAM) (pod ip mac subnetName : String)
    (h : mapLookup ipam.subnets subnetName = none) :
    ipam.GetStaticAddress pod ip mac subnetName =
      (AllocResult.mk "" "" "" (some IpamError.noAvailable), ipam) := by
  unfold IPAM.GetStaticAddress
  rw [h]

theorem subnet_random_exhausted_v4 (s : Subnet) (pod : String)
    (hproto : s.protocol = Protocol.IPv4 ∨ s.protocol = Protocol.Dual)
    (hfree : s.v4.free = [])
    (hpod : mapLookup s.v4.podToIP pod = none) :
    (s.GetRandomAddress pod).1.err = some IpamError.noAvailable := by
  unfold Subnet.GetRandomAddress
  rcases hproto with hp | hp <;> rw [hp, hpod, hfree] <;> rfl

theorem subnet_random_exhausted_v6 (s : Subnet) (pod : String)
    (hproto : s.protocol = Protocol.IPv6)
    (hfree : s.v6.free = [])
    (hpod : mapLookup s.v6.podToIP pod = none) :
    (s.GetRandomAddress pod).1.err = some IpamError.noAvailable := by
  unfold Subnet.GetRandomAddress
  rw [hproto, hpod, hfree]
  rfl

theorem getRandomAddress_present_err (ipam : IPAM) (pod subnetName : String) (s : Subnet)
    (h : mapLookup ipam.subnets subnetName = some s) :
    (ipam.GetRandomAddress pod subnetName).1.err = (s.GetRandomAddress pod).1.err := by
  unfold IPAM.GetRandomAddress
  rw [h]

/-! Entry counting for `IPAM.GetPodAddress`. -/

/-- Number of entries one subnet contributes to every `GetPodAddress` answer:
two for a dual subnet, one otherwise. -/
def subnetEntryCount (s : Subnet) : Nat :=
  if s.protocol = Protocol.Dual then 2 else 1

/-- Total number of entries `GetPodAddress` produces, summed over the
registry, independent of the owner asked about. -/
def registryEntryCount (ipam : IPAM) : Nat :=
  (ipam.subnets.map (fun kv => subnetEntryCount kv.2)).sum

theorem podAddressStep_length (pod : String) (acc : List SubnetAddress)
    (kv : String × Subnet) :
    (podAddressStep pod acc kv).length = acc.length + subnetEntryCount kv.2 := by
  cases hp : kv.2.protocol <;> simp [podAddressStep, subnetEntryCount, hp]

theorem getPodAddress_fold_length (pod : String) :
    ∀ (l : List (String × Subnet)) (acc : List SubnetAddress),
    (l.foldl (podAddressStep pod) acc).length =
      acc.length + (l.map (fun kv => subnetEntryCount kv.2)).sum := by
  intro l
  induction l with
  | nil =>
    intro acc
    simp
  | cons hd tl ih =>
    intro acc
    rw [List.foldl_cons, ih, podAddressStep_length]
    simp [List.map_cons, List.sum_cons]
    omega

end KubeOvn

namespace KubeOvn

/-! The claim theorems, one per claim, with their witnesses and
counterexamples on concrete registries. -/

/-- C7 (amended): the CIDR list returned by `Controller.getSubnetsCIDR` holds
exactly the service cluster IP range, the node-local DNS IP when configured
and parseable, and the CIDR block of every listed subnet whose protocol
matches — the query is a pure function of the controller state. -/
theorem getSubnetsCIDR_mem_characterization (c : Controller) (parseIPOk : String → Bool)
    (protocol : String) (x : String) :
    x ∈ c.getSubnetsCIDR parseIPOk protocol ↔
      x = c.config.serviceClusterIPRange ∨
      (c.config.nodeLocalDNSIP ≠ "" ∧ parseIPOk c.config.nodeLocalDNSIP = true ∧
        x = c.config.nodeLocalDNSIP) ∨
      (∃ sn, sn ∈ c.subnets ∧ sn.protocol = protocol ∧ sn.cidrBlock = x) := by
  unfold Controller.getSubnetsCIDR
  by_cases h : c.config.nodeLocalDNSIP ≠ "" ∧ parseIPOk c.config.nodeLocalDNSIP = true
  · rw [if_pos h]
    simp only [List.mem_append, List.mem_singleton, List.mem_map, List.mem_filter,
      beq_iff_eq]
    constructor
    · rintro ((h1 | h2) | ⟨sn, ⟨hsn, hpr⟩, hx⟩)
      · exact Or.inl h1
      · exact Or.inr (Or.inl ⟨h.1, h.2, h2⟩)
      · exact Or.inr (Or.inr ⟨sn, hsn, hpr, hx⟩)
    · rintro (h1 | ⟨_, _, h2⟩ | ⟨sn, hsn, hpr, hx⟩)
      · exact Or.inl (Or.inl h1)
      · exact Or.inl (Or.inr h2)
      · exact Or.inr ⟨sn, ⟨hsn, hpr⟩, hx⟩
  · rw [if_neg h]
    simp only [List.append_nil, List.mem_append, List.mem_singleton, List.mem_map,
      List.mem_filter, beq_iff_eq]
    constructor
    · rintro (h1 | ⟨sn, ⟨hsn, hpr⟩, hx⟩)
      · exact Or.inl h1
      · exact Or.inr (Or.inr ⟨sn, hsn, hpr, hx⟩)
    · rintro (h1 | ⟨hne, hok, h2⟩ | ⟨sn, hsn, hpr, hx⟩)
      · exact Or.inl h1
      · exact absurd ⟨hne, hok⟩ h
      · exact Or.inr ⟨sn, ⟨hsn, hpr⟩, hx⟩

/-- Concrete controller for the C7 counterexample: a service range, no
node-local DNS IP, and no subnets at all. -/
def sampleControllerC7 : Controller :=
  Controller.mk (GwConfig.mk "10.96.0.0/12" "") []

/-- C7 (counterexample): with no subnets listed, the claim says the returned
set of matching subnet CIDRs is empty, yet `getSubnetsCIDR` returns the
service cluster IP range — an entry that is not any subnet's CIDR. -/
theorem getSubnetsCIDR_includes_service_range :
    sampleControllerC7.getSubnetsCIDR (fun _ => true) "IPv4" = ["10.96.0.0/12"] ∧
    sampleControllerC7.subnets = [] := by
  constructor
  · rfl
  · rfl

/-- C1: after `AddOrUpdateSubnet` reconfigures an already-registered subnet
(valid CIDR, subnet present), for each affected family every address recorded
in the pod-to-IP bookkeeping before the call is absent from the subnet's
rebuilt free list after the call, assuming the §3 bookkeeping invariants
(Go-map-unique owner keys and forward/reverse map agreement). -/
theorem addOrUpdateSubnet_reconfig_free_disjoint (ipam : IPAM) (name cidrStr : String)
    (ex : List String) (s : Subnet) (v4s v6s : String)
    (hp : parseCidrs cidrStr = some (v4s, v6s))
    (hs : mapLookup ipam.subnets name = some s)
    (hcoh4 : ∀ pi, pi ∈ s.v4.podToIP → mapLookup s.v4.ipToPod pi.2 = some pi.1)
    (hk4 : (s.v4.podToIP.map Prod.fst).Nodup)
    (hcoh6 : ∀ pi, pi ∈ s.v6.podToIP → mapLookup s.v6.ipToPod pi.2 = some pi.1)
    (hk6 : (s.v6.podToIP.map Prod.fst).Nodup) :
    ∀ s2, mapLookup (ipam.AddOrUpdateSubnet name cidrStr ex).1.subnets name = some s2 →
      ((addrFamily cidrStr = Protocol.Dual ∨ addrFamily cidrStr = Protocol.IPv4) →
        ∀ pi, pi ∈ s.v4.podToIP → containsL s2.v4.free pi.2 = false) ∧
      ((addrFamily cidrStr = Protocol.Dual ∨ addrFamily cidrStr = Protocol.IPv6) →
        ∀ pi, pi ∈ s.v6.podToIP → containsL s2.v6.free pi.2 = false) := by
  intro s2 hs2
  rw [addOrUpdateSubnet_reconfig_eq ipam name cidrStr ex s v4s v6s hp hs] at hs2
  rw [mapLookup_insert_self] at hs2
  have hx := Option.some.inj hs2
  subst hx
  constructor
  · intro hfam pi hpi
    exact reconfigureSubnet_not_free_v4 s (addrFamily cidrStr) v4s v6s
      (splitIpsByProtocol ex).1 (splitIpsByProtocol ex).2 hfam hcoh4 hk4 pi hpi
  · intro hfam pi hpi
    exact reconfigureSubnet_not_free_v6 s (addrFamily cidrStr) v4s v6s
      (splitIpsByProtocol ex).1 (splitIpsByProtocol ex).2 hfam hcoh6 hk6 pi hpi

/-- Concrete registry for the C1 witness: an IPv4 subnet `1-10` whose owner
`a` holds address 5 (so 5 is currently carved out of the free list). -/
def sampleSubnetC1 : Subnet :=
  Subnet.mk "net" Protocol.IPv4
    (FamilyState.mk (IPRange.mk 1 10) []
      [IPRange.mk 1 4, IPRange.mk 6 10] [("a", 5)] [(5, "a")])
    emptyFam [("a", "m0")] [("m0", "a")]

def sampleIpamC1 : IPAM := IPAM.mk [("net", sampleSubnetC1)]

/-- Subnet stored under `net` after the C1 witness reconfiguration. -/
def sampleAfterC1 : Subnet :=
  reconfigureSubnet sampleSubnetC1 Protocol.IPv4 "1-8" "1-8" ["2"] []

/-- C1 witness: reconfiguring `net` to `1-8` with exclusion `2` leaves owner
`a`'s address 5 outside the rebuilt free list. -/
theorem addOrUpdateSubnet_reconfig_free_disjoint_witness :
    containsL sampleAfterC1.v4.free 5 = false := by
  have h := addOrUpdateSubnet_reconfig_free_disjoint sampleIpamC1 "net" "1-8" ["2"]
    sampleSubnetC1 "1-8" "1-8" (by decide) (by decide) (by decide) (by decide)
    (by decide) (by decide)
  exact (h sampleAfterC1 (by decide)).1 (Or.inr (by decide)) ("a", 5) (by decide)

/-- Concrete registry for the C2 scenario: a dual subnet where `podA` owns
v4 address 5 while v6 address 7 is free. -/
def sampleSubnetC2 : Subnet :=
  Subnet.mk "d" Protocol.Dual
    (FamilyState.mk (IPRange.mk 1 10) []
      [IPRange.mk 1 4, IPRange.mk 6 10] [("podA", 5)] [(5, "podA")])
    (FamilyState.mk (IPRange.mk 1 10) [] [IPRange.mk 1 10] [] [])
    [("podA", "mA")] [("mA", "podA")]

def sampleIpamC2 : IPAM := IPAM.mk [("d", sampleSubnetC2)]

/-- C2 (code bug): `podB` requests the dual pair `5,:7`; the subnet-level v4
call fails `ConflictError` (5 belongs to `podA`), yet the registry's
`GetStaticAddress` returns no error, because the Go code overwrites `err`
with the succeeding v6 call's result — the v4 allocation error is silently
dropped, contradicting the spec's propagation rule. -/
theorem getStaticAddress_dual_drops_v4_error :
    (sampleSubnetC2.GetStaticAddress "podB" "5" "mB" false).1.err =
      some IpamError.conflict ∧
    (sampleIpamC2.GetStaticAddress "podB" "5,:7" "mB" "d").1.err = none := by
  constructor
  · decide
  · decide

/-- C3: an unparsable CIDR makes `AddOrUpdateSubnet` fail `InvalidCIDRError`
and return the registry exactly as it was — any prior subnet under the same
name keeps its free list, reserved list and bookkeeping maps. -/
theorem addOrUpdateSubnet_invalid_cidr_rejected (ipam : IPAM) (name cidrStr : String)
    (ex : List String) (h : parseCidrs cidrStr = none) :
    ipam.AddOrUpdateSubnet name cidrStr ex = (ipam, some IpamError.invalidCIDR) := by
  unfold IPAM.AddOrUpdateSubnet
  rw [h]

/-- Concrete registry for the C3 witness: the name `x` is already taken by a
subnet with live state. -/
def sampleIpamC3 : IPAM :=
  IPAM.mk [("x", Subnet.mk "x" Protocol.IPv4
    (FamilyState.mk (IPRange.mk 1 10) []
      [IPRange.mk 1 4, IPRange.mk 6 10] [("a", 5)] [(5, "a")])
    emptyFam [("a", "m0")] [("m0", "a")])]

/-- C3 witness: `upsertSubnet("x", "not-a-cidr", [])` fails `InvalidCIDR` and
the registry — including the prior subnet `x` — is unchanged. -/
theorem addOrUpdateSubnet_invalid_cidr_rejected_witness :
    sampleIpamC3.AddOrUpdateSubnet "x" "not-a-cidr" [] =
      (sampleIpamC3, some IpamError.invalidCIDR) :=
  addOrUpdateSubnet_invalid_cidr_rejected sampleIpamC3 "x" "not-a-cidr" [] (by decide)

/-- C4: reconfiguring an existing subnet with a valid CIDR succeeds (returns
no error) even when an existing owner's address falls outside the new CIDR;
that owner keeps its bookkeeping entry and its address stays outside the
rebuilt free list — the failing assignment is not released. -/
theorem addOrUpdateSubnet_reconfig_tolerates_invalid_assignment (ipam : IPAM)
    (name cidrStr : String) (ex : List String) (s : Subnet) (v4s v6s : String)
    (pod : String) (ipv : Nat)
    (hp : parseCidrs cidrStr = some (v4s, v6s))
    (hs : mapLookup ipam.subnets name = some s)
    (hfam : addrFamily cidrStr = Protocol.Dual ∨ addrFamily cidrStr = Protocol.IPv4)
    (hk4 : (s.v4.podToIP.map Prod.fst).Nodup)
    (hlook : mapLookup s.v4.podToIP pod = some ipv)
    (hout : inRange (rangeOf v4s) ipv = false) :
    (ipam.AddOrUpdateSubnet name cidrStr ex).2 = none ∧
    ∀ s2, mapLookup (ipam.AddOrUpdateSubnet name cidrStr ex).1.subnets name = some s2 →
      mapLookup s2.v4.podToIP pod = some ipv ∧ containsL s2.v4.free ipv = false := by
  have heq := addOrUpdateSubnet_reconfig_eq ipam name cidrStr ex s v4s v6s hp hs
  constructor
  · rw [heq]
  · intro s2 hs2
    rw [heq, mapLookup_insert_self] at hs2
    have hx := Option.some.inj hs2
    subst hx
    exact reconfigureSubnet_tolerates_v4 s (addrFamily cidrStr) v4s v6s
      (splitIpsByProtocol ex).1 (splitIpsByProtocol ex).2 pod ipv hfam hk4 hlook hout

/-- Concrete registry for the C4 witness: the same shape as C1's. -/
def sampleSubnetC4 : Subnet :=
  Subnet.mk "net" Protocol.IPv4
    (FamilyState.mk (IPRange.mk 1 10) []
      [IPRange.mk 1 4, IPRange.mk 6 10] [("a", 5)] [(5, "a")])
    emptyFam [("a", "m0")] [("m0", "a")]

def sampleIpamC4 : IPAM := IPAM.mk [("net", sampleSubnetC4)]

/-- Subnet stored under `net` after the C4 witness shrinks the CIDR to
`20-30`, putting owner `a`'s address 5 outside it. -/
def sampleAfterC4 : Subnet :=
  reconfigureSubnet sampleSubnetC4 Protocol.IPv4 "20-30" "20-30" [] []

/-- C4 witness: shrinking `net` to `20-30` succeeds, and owner `a` still maps
to 5, which is not in the new free list. -/
theorem addOrUpdateSubnet_reconfig_tolerates_invalid_assignment_witness :
    (sampleIpamC4.AddOrUpdateSubnet "net" "20-30" []).2 = none ∧
    mapLookup sampleAfterC4.v4.podToIP "a" = some 5 ∧
    containsL sampleAfterC4.v4.free 5 = false := by
  have h := addOrUpdateSubnet_reconfig_tolerates_invalid_assignment sampleIpamC4 "net"
    "20-30" [] sampleSubnetC4 "20-30" "20-30" "a" 5 (by decide) (by decide)
    (Or.inr (by decide)) (by decide) (by decide) (by decide)
  exact ⟨h.1, (h.2 sampleAfterC4 (by decide)).1, (h.2 sampleAfterC4 (by decide)).2⟩

/-- C5 (amended): `GetPodAddress` returns one entry per single-family subnet
and two entries per dual-stack subnet of the registry, for every owner — a
subnet in which the owner holds no address still contributes its entries
(with empty address strings), so the answer's length is a function of the
registry alone. -/
theorem getPodAddress_entry_count (ipam : IPAM) (pod : String) :
    (ipam.GetPodAddress pod).length = registryEntryCount ipam := by
  unfold IPAM.GetPodAddress registryEntryCount
  rw [getPodAddress_fold_length]
  simp

/-- Concrete registry for the C5 counterexample: one IPv4 subnet with no
assignments at all. -/
def sampleSubnetC5 : Subnet :=
  Subnet.mk "net" Protocol.IPv4 (famInit (IPRange.mk 1 10) []) emptyFam [] []

def sampleIpamC5 : IPAM := IPAM.mk [("net", sampleSubnetC5)]

/-- C5 (counterexample): owner `nobody` holds no address in any subnet, yet
`GetPodAddress` returns one entry — the claim that a subnet without an
assignment for the owner contributes no entry is false on the code. -/
theorem getPodAddress_entry_for_subnet_without_address :
    mapLookup sampleSubnetC5.v4.podToIP "nobody" = none ∧
    mapLookup sampleSubnetC5.v6.podToIP "nobody" = none ∧
    (sampleIpamC5.GetPodAddress "nobody").length = 1 := by
  refine ⟨rfl, rfl, ?_⟩
  decide

/-- C6: a subnet name absent from the registry makes both `GetRandomAddress`
and `GetStaticAddress` fail `NoAvailableError`, and the same error kind is
what random allocation returns when the subnet's relevant free list is
exhausted. -/
theorem allocation_noAvailable_missing_or_exhausted :
    (∀ (ipam : IPAM) (pod ip mac subnetName : String),
      mapLookup ipam.subnets subnetName = none →
        (ipam.GetRandomAddress pod subnetName).1.err = some IpamError.noAvailable ∧
        (ipam.GetStaticAddress pod ip mac subnetName).1.err = some IpamError.noAvailable) ∧
    (∀ (ipam : IPAM) (pod subnetName : String) (s : Subnet),
      mapLookup ipam.subnets subnetName = some s →
      ((s.protocol = Protocol.IPv4 ∨ s.protocol = Protocol.Dual) →
        s.v4.free = [] → mapLookup s.v4.podToIP pod = none →
        (ipam.GetRandomAddress pod subnetName).1.err = some IpamError.noAvailable) ∧
      (s.protocol = Protocol.IPv6 →
        s.v6.free = [] → mapLookup s.v6.podToIP pod = none →
        (ipam.GetRandomAddress pod subnetName).1.err = some IpamError.noAvailable)) := by
  constructor
  · intro ipam pod ip mac subnetName h
    constructor
    · rw [getRandomAddress_missing_eq ipam pod subnetName h]
    · rw [getStaticAddress_missing_eq ipam pod ip mac subnetName h]
  · intro ipam pod subnetName s h
    constructor
    · intro hproto hfree hpod
      rw [getRandomAddress_present_err ipam pod subnetName s h]
      exact subnet_random_exhausted_v4 s pod hproto hfree hpod
    · intro hproto hfree hpod
      rw [getRandomAddress_present_err ipam pod subnetName s h]
      exact subnet_random_exhausted_v6 s pod hproto hfree hpod

/-- Concrete registries for the C6 witness: an empty registry and one holding
an IPv4 subnet whose free list is exhausted. -/
def sampleIpamC6empty : IPAM := IPAM.mk []

def sampleSubnetC6 : Subnet :=
  Subnet.mk "full" Protocol.IPv4
    (FamilyState.mk (IPRange.mk 1 1) [] [] [("other", 1)] [(1, "other")])
    emptyFam [("other", "m1")] [("m1", "other")]

def sampleIpamC6 : IPAM := IPAM.mk [("full", sampleSubnetC6)]

/-- C6 witness: a missing subnet fails both allocation entry points with
`NoAvailable`, and an exhausted subnet fails random allocation with the same
error kind. -/
theorem allocation_noAvailable_missing_or_exhausted_witness :
    (sampleIpamC6empty.GetRandomAddress "p" "nope").1.err = some IpamError.noAvailable ∧
    (sampleIpamC6empty.GetStaticAddress "p" "3" "m" "nope").1.err =
      some IpamError.noAvailable ∧
    (sampleIpamC6.GetRandomAddress "p" "full").1.err = some IpamError.noAvailable := by
  refine ⟨?_, ?_, ?_⟩
  · exact (allocation_noAvailable_missing_or_exhausted.1 sampleIpamC6empty "p" "3" "m"
      "nope" rfl).1
  · exact (allocation_noAvailable_missing_or_exhausted.1 sampleIpamC6empty "p" "3" "m"
      "nope" rfl).2
  · exact ((allocation_noAvailable_missing_or_exhausted.2 sampleIpamC6 "p" "full"
      sampleSubnetC6 rfl).1 (Or.inl rfl) rfl rfl)

/-- C8: `DeleteSubnet` removes exactly the named entry — the name no longer
resolves afterwards — and every other name resolves to the very same subnet
state as before; the operation is total (it never fails). -/
theorem deleteSubnet_removes_exactly_named (ipam : IPAM) (name : String) :
    mapLookup (ipam.DeleteSubnet name).subnets name = none ∧
    ∀ k, k ≠ name →
      mapLookup (ipam.DeleteSubnet name).subnets k = mapLookup ipam.subnets k := by
  constructor
  · exact mapLookup_erase_self ipam.subnets name
  · intro k hk
    exact mapLookup_erase_other ipam.subnets name k hk

/-- Concrete registry for the C8 witness: two subnets `a` and `b`. -/
def sampleIpamC8 : IPAM :=
  IPAM.mk [("a", Subnet.mk "a" Protocol.IPv4 (famInit (IPRange.mk 1 10) []) emptyFam [] []),
           ("b", Subnet.mk "b" Protocol.IPv4 (famInit (IPRange.mk 20 30) []) emptyFam [] [])]

/-- C8 witness: deleting `a` removes `a` and leaves `b`'s entry untouched. -/
theorem deleteSubnet_removes_exactly_named_witness :
    mapLookup (sampleIpamC8.DeleteSubnet "a").subnets "a" = none ∧
    mapLookup (sampleIpamC8.DeleteSubnet "a").subnets "b" =
      mapLookup sampleIpamC8.subnets "b" :=
  ⟨(deleteSubnet_removes_exactly_named sampleIpamC8 "a").1,
   (deleteSubnet_removes_exactly_named sampleIpamC8 "a").2 "b" (by decide)⟩

/-- C10: when the requested subnet name is not registered, `GetRandomAddress`
and `GetStaticAddress` both return empty strings for all three result values
together with the error, and return the registry state unchanged. -/
theorem getAddress_missing_subnet_empty_unchanged (ipam : IPAM)
    (pod ip mac subnetName : String)
    (h : mapLookup ipam.subnets subnetName = none) :
    ipam.GetRandomAddress pod subnetName =
      (AllocResult.mk "" "" "" (some IpamError.noAvailable), ipam) ∧
    ipam.GetStaticAddress pod ip mac subnetName =
      (AllocResult.mk "" "" "" (some IpamError.noAvailable), ipam) :=
  ⟨getRandomAddress_missing_eq ipam pod subnetName h,
   getStaticAddress_missing_eq ipam pod ip mac subnetName h⟩

/-- Concrete registry for the C10 witness: one live subnet, so "state
unchanged" is observable. -/
def sampleIpamC10 : IPAM :=
  IPAM.mk [("live", Subnet.mk "live" Protocol.IPv4
    (FamilyState.mk (IPRange.mk 1 10) []
      [IPRange.mk 1 4, IPRange.mk 6 10] [("a", 5)] [(5, "a")])
    emptyFam [("a", "m0")] [("m0", "a")])]

/-- C10 witness: asking a missing subnet returns empty values, the
`NoAvailable` error, and the untouched registry. -/
theorem getAddress_missing_subnet_empty_unchanged_witness :
    sampleIpamC10.GetRandomAddress "p" "nope" =
      (AllocResult.mk "" "" "" (some IpamError.noAvailable), sampleIpamC10) ∧
    sampleIpamC10.GetStaticAddress "p" "3" "m" "nope" =
      (AllocResult.mk "" "" "" (some IpamError.noAvailable), sampleIpamC10) :=
  getAddress_missing_subnet_empty_unchanged sampleIpamC10 "p" "3" "m" "nope" rfl

end KubeOvn
